import Mathlib

/-!
Verification development for the OpenImageIO plugin catalog
(`src/libimageio/imageioplugin.cpp`).

The C++ file maintains six process-wide `std::map`s (four factory maps plus
path/handle bookkeeping), a catalog builder (`catalog_plugin`,
`catalog_all_plugins`) and the two dispatchers `ImageInput::create` /
`ImageOutput::create`.  We embed the registry as explicit state, the external
collaborators as an
abstract `World` (module loader, environment variable, directory listing),
and the functions as pure state transformers that also report the
externally observable events (module opens/closes, duplicate warnings).
-/

set_option maxHeartbeats 1000000

namespace ImageIO

/-! ### Association-list model of `std::map` -/

/-- `std::map::find`: the value bound to `k`, if any. -/
def mapFind {α : Type} (k : String) : List (String × α) → Option α
  | [] => none
  | (k1, v) :: rest => if k1 = k then some v else mapFind k rest

/-- `std::map::operator[] = v`: overwrite the binding of `k` if present,
otherwise add it. -/
def mapSet {α : Type} (k : String) (v : α) : List (String × α) → List (String × α)
  | [] => [(k, v)]
  | (k1, v1) :: rest =>
    if k1 = k then (k1, v) :: rest else (k1, v1) :: mapSet k v rest

/-! ### String utilities used by the C++ code -/

/-- `boost::algorithm::to_lower` (ASCII, as used on format keys and
extensions). -/
def to_lower (s : String) : String :=
  String.mk (s.data.map Char.toLower)

/-- `std::string::find(pat)` on character lists: index of the first
occurrence of `pat`, if any. -/
def findSub (pat : List Char) : List Char → Option Nat
  | [] => if pat.isPrefixOf ([] : List Char) then some 0 else none
  | c :: t =>
    if pat.isPrefixOf (c :: t) then some 0
    else (findSub pat t).map (fun n => n + 1)

/-- `leaf.find(pattern)` lifted to `String`. -/
def strFind (s pat : String) : Option Nat :=
  findSub pat.data s.data

/-- `boost::filesystem::path::leaf()` for POSIX path strings: the portion
after the last slash. -/
def afterLastSlash (l : List Char) : List Char :=
  l.foldl (fun acc c => if c = '/' then [] else acc ++ [c]) []

/-- The tail of the list starting at its last dot (dot included), if the
list has a dot: the heart of `boost::filesystem::extension`. -/
def extTail (l : List Char) : Option (List Char) :=
  l.foldl (fun acc c =>
    if c = '.' then some [c] else acc.map (fun t => t ++ [c])) none

/-- `boost::filesystem::extension(filename)`: the extension of the leaf,
including the leading dot; empty when the leaf has no dot. -/
def extensionOf (filename : String) : String :=
  match extTail (afterLastSlash filename.data) with
  | some t => String.mk t
  | none => ""

/-- The format key the dispatchers derive from a filename
(`ImageInput::create` lines 256–272 / `ImageOutput::create` lines 215–231):
extension; whole filename when there is none; leading dot stripped;
lower-cased. -/
def format_of_filename (filename : String) : String :=
  let format := extensionOf filename
  let format :=
    if format = "" then filename
    else
      match format.data with
      | '.' :: rest => String.mk rest
      | _ => format
  to_lower format

/-! ### The external world: module loader, filesystem, environment -/

/-- What `Plugin::getsym` can see inside one opened module.  Factory
symbols are raw addresses (`0` = symbol absent / null pointer); the
`imageio_version` symbol is an optional integer; the null-terminated
extension arrays are lists of strings (empty when the symbol is absent). -/
structure PluginModule where
  version : Option Int
  getsym : String → Nat
  getExts : String → List String

/-- Modelled from the spec: the external collaborators of the catalog —
the dynamic-module loader (`Plugin::open` / `getsym` / `close`), the
`IMAGEIO_LIBRARY_PATH` environment variable, the per-directory file
listing, and the platform module extension.  All are deterministic during
one scan. -/
structure World where
  openPlugin : String → Option Nat
  modules : Nat → PluginModule
  env_library_path : Option String
  dirEntries : String → List String
  plugin_ext : String

/-- Modelled from the spec: the Registry's expected ABI version tag
(`IMAGEIO_VERSION`, an integer constant from the library headers that are
not part of this excerpt).  Its exact value is irrelevant to every claim. -/
def IMAGEIO_VERSION : Int := 10

/-! ### The registry state -/

/-- The six process-wide maps of `imageioplugin.cpp` (lines 56–67). -/
structure Registry where
  input_formats : List (String × Nat)
  output_formats : List (String × Nat)
  input_extensions : List (String × Nat)
  output_extensions : List (String × Nat)
  plugin_handles : List (String × Nat)
  plugin_filepaths : List (String × String)
deriving DecidableEq, Repr

def Registry.empty : Registry :=
  ⟨[], [], [], [], [], []⟩

/-- Externally observable actions of the catalog: module opens and closes,
and the duplicate-plugin warning printed to `std::cerr` (which names the
format and both paths). -/
inductive Event where
  | opened (path : String)
  | closed (h : Nat)
  | warnDuplicate (fmt oldpath newpath : String)
deriving DecidableEq, Repr

/-! ### catalog_plugin -/

/-- The extension-registration loops of `catalog_plugin` (lines 130–136 and
146–152): for each extension string, lower-case it and bind it to the
factory only when the key is not already present in the map. -/
def register_exts (f : Nat) (exts : List String) (m : List (String × Nat)) :
    List (String × Nat) :=
  exts.foldl (fun acc e =>
    let ext := to_lower e
    match mapFind ext acc with
    | some _ => acc
    | none => mapSet ext f acc) m

/-- `catalog_plugin` (lines 77–159), returning the new registry and the
events performed. -/
def catalog_plugin (w : World) (reg : Registry)
    (format_name plugin_fullpath : String) : Registry × List Event :=
  match mapFind format_name reg.plugin_filepaths with
  | some oldpath =>
    if oldpath = plugin_fullpath then (reg, [])
    else (reg, [Event.warnDuplicate format_name oldpath plugin_fullpath])
  | none =>
    match w.openPlugin plugin_fullpath with
    | none => (reg, [])
    | some h =>
      let m := w.modules h
      if m.version ≠ some IMAGEIO_VERSION then
        (reg, [Event.opened plugin_fullpath, Event.closed h])
      else
        let reg1 : Registry :=
          { reg with
            plugin_filepaths := mapSet format_name plugin_fullpath reg.plugin_filepaths,
            plugin_handles := mapSet format_name h reg.plugin_handles }
        let outF := m.getsym (format_name ++ "_output_imageio_create")
        let reg2 : Registry :=
          if outF ≠ 0 then
            { reg1 with
              output_formats :=
                register_exts outF (m.getExts (format_name ++ "_output_extensions"))
                  (mapSet format_name outF reg1.output_formats) }
          else reg1
        let inF := m.getsym (format_name ++ "_input_imageio_create")
        let reg3 : Registry :=
          if inF ≠ 0 then
            { reg2 with
              input_formats :=
                register_exts inF (m.getExts (format_name ++ "_input_extensions"))
                  (mapSet format_name inF reg2.input_formats) }
          else reg2
        if outF ≠ 0 ∨ inF ≠ 0 then (reg3, [Event.opened plugin_fullpath])
        else (reg3, [Event.opened plugin_fullpath, Event.closed h])

/-! ### catalog_all_plugins -/

/-- Split a character list on the colon separator. -/
def splitOnColon : List Char → List (List Char)
  | [] => [[]]
  | c :: t =>
    if c = ':' then [] :: splitOnColon t
    else
      match splitOnColon t with
      | [] => [[c]]
      | h :: r => (c :: h) :: r

/-- Modelled from the spec: `Filesystem::searchpath_split` (not part of the
excerpt) splits the search-path string on the platform path separator into
an ordered list of directories. -/
def searchpath_split (s : String) : List String :=
  ((splitOnColon s.data).map String.mk).filter (fun d => d ≠ "")

/-- Lines 169–175: prepend the `IMAGEIO_LIBRARY_PATH` environment value
(when set and non-empty) to the caller-supplied search path. -/
def merged_searchpath (w : World) (searchpath : String) : String :=
  match w.env_library_path with
  | none => searchpath
  | some p =>
    if p = "" then searchpath
    else if searchpath.length ≠ 0 then p ++ ":" ++ searchpath else p

/-- `".imageio." + Plugin::plugin_extension()` (line 72). -/
def plugin_pattern (w : World) : String :=
  ".imageio." ++ w.plugin_ext

/-- The candidate test of the scan loop (lines 190–196): an entry is a
plugin candidate exactly when the first occurrence of the pattern in the
leaf is at `leaf.length - patlen`; the format name is the leaf with the
pattern stripped and the full path is `dir/leaf`. -/
def entry_candidate (w : World) (dir leaf : String) :
    Option (String × String) :=
  match strFind leaf (plugin_pattern w) with
  | some found =>
    if found = leaf.data.length - (plugin_pattern w).data.length then
      some (String.mk
          (leaf.data.take (leaf.data.length - (plugin_pattern w).data.length)),
        dir ++ "/" ++ leaf)
    else none
  | none => none

/-- One iteration of the inner directory loop. -/
def process_entry (w : World) (acc : Registry × List Event)
    (dir leaf : String) : Registry × List Event :=
  match entry_candidate w dir leaf with
  | some (fmt, full) =>
    let r := catalog_plugin w acc.1 fmt full
    (r.1, acc.2 ++ r.2)
  | none => acc

/-- `catalog_all_plugins` (lines 166–203). -/
def catalog_all_plugins (w : World) (reg : Registry) (searchpath : String) :
    Registry × List Event :=
  let sp := merged_searchpath w searchpath
  (searchpath_split sp).foldl
    (fun acc dir =>
      (w.dirEntries dir).foldl (fun a leaf => process_entry w a dir leaf) acc)
    (reg, [])

/-! ### The dispatchers -/

inductive CreateError where
  | invalidArgument
  | pluginNotFound (filename searchpath : String)
deriving DecidableEq, Repr

/-- The outcome of a dispatcher call: either a recorded error and a null
return, or the invocation of the resolved (non-null) factory. -/
inductive CreateResult where
  | err (e : CreateError)
  | ok (f : Nat)
deriving DecidableEq, Repr

/-- `ImageInput::create` (lines 248–289). -/
def ImageInput_create (w : World) (reg : Registry)
    (filename plugin_searchpath : String) : Registry × CreateResult :=
  if filename = "" then (reg, CreateResult.err CreateError.invalidArgument)
  else
    let format := format_of_filename filename
    let reg1 :=
      if (mapFind format reg.input_formats).isNone then
        (catalog_all_plugins w reg plugin_searchpath).1
      else reg
    match mapFind format reg1.input_formats with
    | none =>
      (reg1, CreateResult.err (CreateError.pluginNotFound filename plugin_searchpath))
    | some f => (reg1, CreateResult.ok f)

/-- `ImageOutput::create` (lines 207–244). -/
def ImageOutput_create (w : World) (reg : Registry)
    (filename plugin_searchpath : String) : Registry × CreateResult :=
  if filename = "" then (reg, CreateResult.err CreateError.invalidArgument)
  else
    let format := format_of_filename filename
    let reg1 :=
      if (mapFind format reg.output_formats).isNone then
        (catalog_all_plugins w reg plugin_searchpath).1
      else reg
    match mapFind format reg1.output_formats with
    | none =>
      (reg1, CreateResult.err (CreateError.pluginNotFound filename plugin_searchpath))
    | some f => (reg1, CreateResult.ok f)

/-! ### Operation sequences (for reachability claims) -/

inductive Op where
  | catalogP (fmt path : String)
  | catalogAll (sp : String)
  | createI (fn sp : String)
  | createO (fn sp : String)

def runOp (w : World) (reg : Registry) : Op → Registry
  | Op.catalogP f p => (catalog_plugin w reg f p).1
  | Op.catalogAll sp => (catalog_all_plugins w reg sp).1
  | Op.createI fn sp => (ImageInput_create w reg fn sp).1
  | Op.createO fn sp => (ImageOutput_create w reg fn sp).1

def runOps (w : World) (reg : Registry) (ops : List Op) : Registry :=
  ops.foldl (runOp w) reg

/-! ### Derived notions used by the statements -/

/-- Every factory value stored in the map is a non-null address. -/
def nonNullMap (m : List (String × Nat)) : Prop :=
  ∀ k v, mapFind k m = some v → v ≠ 0

/-- All four factory maps hold only non-null factories. -/
def FactoriesNonNull (reg : Registry) : Prop :=
  nonNullMap reg.input_formats ∧ nonNullMap reg.output_formats ∧
  nonNullMap reg.input_extensions ∧ nonNullMap reg.output_extensions

/-- A candidate `(fmt, path)` that can no longer mutate the registry:
its format name is already recorded, or its module does not open, or its
module fails the version gate. -/
def candidateOK (w : World) (reg : Registry) (fmt path : String) : Prop :=
  (mapFind fmt reg.plugin_filepaths).isSome = true ∨
  w.openPlugin path = none ∨
  ∃ h, w.openPlugin path = some h ∧ (w.modules h).version ≠ some IMAGEIO_VERSION

/-- The ordered list of `(formatName, fullPath)` candidates one scan visits:
all directories of the split merged search path, each listed
non-recursively, filtered by the suffix test. -/
def scan_list (w : World) (sp : String) : List (String × String) :=
  (searchpath_split (merged_searchpath w sp)).flatMap
    (fun dir => (w.dirEntries dir).filterMap (entry_candidate w dir))

/-- One candidate step of the flattened scan. -/
def flatStep (w : World) (acc : Registry × List Event) (c : String × String) :
    Registry × List Event :=
  ((catalog_plugin w acc.1 c.1 c.2).1, acc.2 ++ (catalog_plugin w acc.1 c.1 c.2).2)

/-- Every candidate of `l` is inert on `reg`. -/
def scanOK (w : World) (reg : Registry) (l : List (String × String)) : Prop :=
  ∀ c ∈ l, candidateOK w reg c.1 c.2

/-- No scanned candidate's format name is recorded under a foreign path. -/
def noDupCond (reg : Registry) (l : List (String × String)) : Prop :=
  ∀ c ∈ l, mapFind c.1 reg.plugin_filepaths = none ∨
    mapFind c.1 reg.plugin_filepaths = some c.2

instance (reg : Registry) (l : List (String × String)) :
    Decidable (noDupCond reg l) := by
  unfold noDupCond
  infer_instance

/-- Does the string contain an ASCII uppercase letter? -/
def hasUpper (s : String) : Bool :=
  s.data.any (fun c => 65 ≤ c.toNat && c.toNat ≤ 90)

/-- Drop one leading dot. -/
def stripLeadingDot (s : String) : String :=
  match s.data with
  | '.' :: r => String.mk r
  | _ => s

/-- The key-derivation rule in the words of claim C6: the filename's
extension, or the whole filename when there is none; one leading dot
stripped; lower-cased. -/
def claim_key (filename : String) : String :=
  to_lower
    (if extensionOf filename = "" then filename
     else stripLeadingDot (extensionOf filename))

/-- Does `s` end with `suf`? -/
def endsWithStr (s suf : String) : Bool :=
  suf.data.isSuffixOf s.data

/-- `pat` occurs in `l` at position `i`. -/
def occursAt (pat l : List Char) (i : Nat) : Prop :=
  pat <+: l.drop i

instance (pat l : List Char) (i : Nat) : Decidable (occursAt pat l i) := by
  unfold occursAt
  infer_instance

/-! ### Concrete worlds used by witnesses and counterexamples -/

/-- A module with no usable symbols. -/
def noModule : PluginModule :=
  ⟨none, fun _ => 0, fun _ => []⟩

/-- A well-formed png plugin: valid version, input factory 7 with
extension list `["png"]`, output factory 8 with extension list `["png"]`. -/
def pngModule : PluginModule :=
  ⟨some IMAGEIO_VERSION,
   fun s => if s = "png_input_imageio_create" then 7
            else if s = "png_output_imageio_create" then 8 else 0,
   fun s => if s = "png_input_extensions" then ["png"]
            else if s = "png_output_extensions" then ["png"] else []⟩

/-- A world whose search path `/plugins` holds exactly that png plugin. -/
def wPng : World :=
  { openPlugin := fun p => if p = "/plugins/png.imageio.so" then some 1 else none
    modules := fun h => if h = 1 then pngModule else noModule
    env_library_path := none
    dirEntries := fun d => if d = "/plugins" then ["png.imageio.so"] else []
    plugin_ext := "so" }

/-- A module passing the version gate but exporting no factory at all. -/
def noFacModule : PluginModule :=
  ⟨some IMAGEIO_VERSION, fun _ => 0, fun _ => []⟩

/-- World with one version-valid but useless plugin. -/
def wNoFac : World :=
  { openPlugin := fun p => if p = "/p/nul.imageio.so" then some 1 else none
    modules := fun _ => noFacModule
    env_library_path := none
    dirEntries := fun _ => []
    plugin_ext := "so" }

/-- World with one plugin whose version tag mismatches. -/
def wBadVer : World :=
  { openPlugin := fun p => if p = "/p/bad.imageio.so" then some 3 else none
    modules := fun _ => ⟨some (IMAGEIO_VERSION + 1), fun _ => 5, fun _ => []⟩
    env_library_path := none
    dirEntries := fun _ => []
    plugin_ext := "so" }

/-- An input-only module for format `fname`: factory address `f`,
input extension list `exts`. -/
def inOnlyModule (fname : String) (f : Nat) (exts : List String) : PluginModule :=
  ⟨some IMAGEIO_VERSION,
   fun s => if s = fname ++ "_input_imageio_create" then f else 0,
   fun s => if s = fname ++ "_input_extensions" then exts else []⟩

/-- Three plugins: format `aaa` claiming extension `png` (factory 5), a
second format `ccc` also claiming extension `png` (factory 6), and a
plugin whose format NAME is `png` (factory 9). -/
def wOvr : World :=
  { openPlugin := fun p =>
      if p = "/p/aaa.imageio.so" then some 1
      else if p = "/p/png.imageio.so" then some 2
      else if p = "/p/ccc.imageio.so" then some 3 else none
    modules := fun h =>
      if h = 1 then inOnlyModule "aaa" 5 ["png"]
      else if h = 2 then inOnlyModule "png" 9 []
      else if h = 3 then inOnlyModule "ccc" 6 ["png"] else noModule
    env_library_path := none
    dirEntries := fun _ => []
    plugin_ext := "so" }

/-- A plugin whose file-derived format name `PNG` carries an uppercase
letter (input factory 11). -/
def wUP : World :=
  { openPlugin := fun p => if p = "/p/PNG.imageio.so" then some 1 else none
    modules := fun _ => inOnlyModule "PNG" 11 []
    env_library_path := none
    dirEntries := fun d => if d = "/p" then ["PNG.imageio.so"] else []
    plugin_ext := "so" }

/-- Two directories each holding an `x.imageio.so` for the same format
name `x` at different paths. -/
def wDup : World :=
  { openPlugin := fun p =>
      if p = "/a/x.imageio.so" then some 1
      else if p = "/b/x.imageio.so" then some 2 else none
    modules := fun h =>
      if h = 1 then inOnlyModule "x" 5 []
      else if h = 2 then inOnlyModule "x" 6 [] else noModule
    env_library_path := none
    dirEntries := fun d =>
      if d = "/a" then ["x.imageio.so"]
      else if d = "/b" then ["x.imageio.so"] else []
    plugin_ext := "so" }

/-- A directory holding a file whose leaf ENDS with the plugin suffix but
also contains the suffix earlier (`x.imageio.so.imageio.so`); the module
at that path would be perfectly valid if it were ever opened. -/
def wSuf : World :=
  { openPlugin := fun p =>
      if p = "/d/x.imageio.so.imageio.so" then some 1 else none
    modules := fun _ => inOnlyModule "x.imageio.so" 3 []
    env_library_path := none
    dirEntries := fun d => if d = "/d" then ["x.imageio.so.imageio.so"] else []
    plugin_ext := "so" }

/-- An output-only png module with output extension list `["FOO"]`. -/
def outModule : PluginModule :=
  ⟨some IMAGEIO_VERSION,
   fun s => if s = "png_output_imageio_create" then 4 else 0,
   fun s => if s = "png_output_extensions" then ["FOO"] else []⟩

/-- World holding only that output-only plugin. -/
def wC7 : World :=
  { openPlugin := fun p => if p = "/p/png.imageio.so" then some 1 else none
    modules := fun _ => outModule
    env_library_path := none
    dirEntries := fun _ => []
    plugin_ext := "so" }

/-- A registry that already records a path and handle for `png`. -/
def regWithPng : Registry :=
  ⟨[], [], [], [], [("png", 1)], [("png", "/p/a.imageio.so")]⟩

/-! ## Map lemmas -/

theorem mapFind_mapSet_self {α : Type} (k : String) (v : α)
    (m : List (String × α)) : mapFind k (mapSet k v m) = some v := by
  induction m with
  | nil => simp [mapFind, mapSet]
  | cons hd tl ih =>
    obtain ⟨k1, v1⟩ := hd
    by_cases h : k1 = k
    · simp [mapFind, mapSet, h]
    · simp [mapFind, mapSet, h, ih]

theorem mapFind_mapSet_ne {α : Type} {k k1 : String} (v : α)
    (m : List (String × α)) (h : k1 ≠ k) :
    mapFind k (mapSet k1 v m) = mapFind k m := by
  induction m with
  | nil => simp [mapFind, mapSet, h]
  | cons hd tl ih =>
    obtain ⟨k2, v2⟩ := hd
    by_cases h2 : k2 = k1
    · subst h2; simp [mapFind, mapSet, h]
    · by_cases h3 : k2 = k <;> simp [mapFind, mapSet, h2, h3, Ne.symm h, ih]

theorem isSome_mapFind_mapSet {α : Type} {k : String} (k1 : String) (v : α)
    {m : List (String × α)} (h : (mapFind k m).isSome = true) :
    (mapFind k (mapSet k1 v m)).isSome = true := by
  by_cases hk : k1 = k
  · subst hk; simp [mapFind_mapSet_self]
  · rwa [mapFind_mapSet_ne v m hk]

theorem register_exts_nil (f : Nat) (m : List (String × Nat)) :
    register_exts f [] m = m := rfl

theorem register_exts_cons (f : Nat) (e : String) (es : List String)
    (m : List (String × Nat)) :
    register_exts f (e :: es) m =
      register_exts f es
        (match mapFind (to_lower e) m with
         | some _ => m
         | none => mapSet (to_lower e) f m) := rfl

theorem mapFind_register_exts_of_some {k : String} {v f : Nat}
    {exts : List String} {m : List (String × Nat)}
    (h : mapFind k m = some v) :
    mapFind k (register_exts f exts m) = some v := by
  induction exts generalizing m with
  | nil => simpa [register_exts_nil] using h
  | cons e es ih =>
    rw [register_exts_cons]
    cases hfind : mapFind (to_lower e) m with
    | some v1 => exact ih h
    | none =>
      apply ih
      have hne : to_lower e ≠ k := by
        intro heq; rw [heq, h] at hfind; exact Option.noConfusion hfind
      rw [mapFind_mapSet_ne f m hne]; exact h

theorem isSome_mapFind_register_exts {k : String} {f : Nat}
    {exts : List String} {m : List (String × Nat)}
    (h : (mapFind k m).isSome = true) :
    (mapFind k (register_exts f exts m)).isSome = true := by
  obtain ⟨v, hv⟩ := Option.isSome_iff_exists.mp h
  rw [mapFind_register_exts_of_some hv]
  rfl

theorem isSome_mapFind_register_exts_mem {e : String} {f : Nat}
    {exts : List String} {m : List (String × Nat)} (he : e ∈ exts) :
    (mapFind (to_lower e) (register_exts f exts m)).isSome = true := by
  induction exts generalizing m with
  | nil => cases he
  | cons a es ih =>
    rw [register_exts_cons]
    rcases List.mem_cons.mp he with heq | hmem
    · subst heq
      cases hfind : mapFind (to_lower e) m with
      | some v1 =>
        exact isSome_mapFind_register_exts (by simp [hfind])
      | none =>
        exact isSome_mapFind_register_exts (by simp [mapFind_mapSet_self])
    · cases hfind : mapFind (to_lower a) m <;> exact ih hmem

theorem nonNullMap_mapSet {m : List (String × Nat)} {k : String} {v : Nat}
    (hm : nonNullMap m) (hv : v ≠ 0) : nonNullMap (mapSet k v m) := by
  intro k1 v1 h1
  by_cases hk : k = k1
  · subst hk; rw [mapFind_mapSet_self] at h1
    cases h1; exact hv
  · rw [mapFind_mapSet_ne v m hk] at h1
    exact hm k1 v1 h1

theorem nonNullMap_register_exts {m : List (String × Nat)} {f : Nat}
    {exts : List String} (hm : nonNullMap m) (hf : f ≠ 0) :
    nonNullMap (register_exts f exts m) := by
  induction exts generalizing m with
  | nil => simpa [register_exts_nil] using hm
  | cons e es ih =>
    rw [register_exts_cons]
    cases hfind : mapFind (to_lower e) m with
    | some v1 => exact ih hm
    | none => exact ih (nonNullMap_mapSet hm hf)

/-! ## Branch equations for `catalog_plugin` -/

theorem catalog_plugin_already {w : World} {reg : Registry} {fmt path p : String}
    (h : mapFind fmt reg.plugin_filepaths = some p) :
    catalog_plugin w reg fmt path =
      if p = path then (reg, [])
      else (reg, [Event.warnDuplicate fmt p path]) := by
  simp [catalog_plugin, h]

theorem catalog_plugin_openfail {w : World} {reg : Registry} {fmt path : String}
    (h1 : mapFind fmt reg.plugin_filepaths = none)
    (h2 : w.openPlugin path = none) :
    catalog_plugin w reg fmt path = (reg, []) := by
  simp [catalog_plugin, h1, h2]

theorem catalog_plugin_badver {w : World} {reg : Registry} {fmt path : String}
    {h : Nat} (h1 : mapFind fmt reg.plugin_filepaths = none)
    (h2 : w.openPlugin path = some h)
    (h3 : (w.modules h).version ≠ some IMAGEIO_VERSION) :
    catalog_plugin w reg fmt path =
      (reg, [Event.opened path, Event.closed h]) := by
  simp [catalog_plugin, h1, h2, h3]

theorem catalog_plugin_goodver {w : World} {reg : Registry} {fmt path : String}
    {h : Nat} (h1 : mapFind fmt reg.plugin_filepaths = none)
    (h2 : w.openPlugin path = some h)
    (h3 : (w.modules h).version = some IMAGEIO_VERSION) :
    (catalog_plugin w reg fmt path).1 =
      { input_formats :=
          if (w.modules h).getsym (fmt ++ "_input_imageio_create") ≠ 0 then
            register_exts ((w.modules h).getsym (fmt ++ "_input_imageio_create"))
              ((w.modules h).getExts (fmt ++ "_input_extensions"))
              (mapSet fmt ((w.modules h).getsym (fmt ++ "_input_imageio_create"))
                reg.input_formats)
          else reg.input_formats
        output_formats :=
          if (w.modules h).getsym (fmt ++ "_output_imageio_create") ≠ 0 then
            register_exts ((w.modules h).getsym (fmt ++ "_output_imageio_create"))
              ((w.modules h).getExts (fmt ++ "_output_extensions"))
              (mapSet fmt ((w.modules h).getsym (fmt ++ "_output_imageio_create"))
                reg.output_formats)
          else reg.output_formats
        input_extensions := reg.input_extensions
        output_extensions := reg.output_extensions
        plugin_handles := mapSet fmt h reg.plugin_handles
        plugin_filepaths := mapSet fmt path reg.plugin_filepaths } := by
  by_cases ho : (w.modules h).getsym (fmt ++ "_output_imageio_create") ≠ 0 <;>
    by_cases hi : (w.modules h).getsym (fmt ++ "_input_imageio_create") ≠ 0 <;>
    simp [catalog_plugin, h1, h2, h3, ho, hi]

theorem catalog_plugin_goodver_events {w : World} {reg : Registry}
    {fmt path : String} {h : Nat}
    (h1 : mapFind fmt reg.plugin_filepaths = none)
    (h2 : w.openPlugin path = some h)
    (h3 : (w.modules h).version = some IMAGEIO_VERSION) :
    (catalog_plugin w reg fmt path).2 =
      if (w.modules h).getsym (fmt ++ "_output_imageio_create") ≠ 0 ∨
         (w.modules h).getsym (fmt ++ "_input_imageio_create") ≠ 0 then
        [Event.opened path]
      else [Event.opened path, Event.closed h] := by
  by_cases ho : (w.modules h).getsym (fmt ++ "_output_imageio_create") ≠ 0 <;>
    by_cases hi : (w.modules h).getsym (fmt ++ "_input_imageio_create") ≠ 0 <;>
    simp [catalog_plugin, h1, h2, h3, ho, hi]

/-! ## The non-null-factory invariant is preserved everywhere -/

theorem FactoriesNonNull_catalog_plugin {w : World} {reg : Registry}
    {fmt path : String} (hr : FactoriesNonNull reg) :
    FactoriesNonNull (catalog_plugin w reg fmt path).1 := by
  cases hfp : mapFind fmt reg.plugin_filepaths with
  | some p =>
    have hres : (catalog_plugin w reg fmt path).1 = reg := by
      rw [catalog_plugin_already hfp]; split <;> rfl
    rw [hres]; exact hr
  | none =>
    cases hop : w.openPlugin path with
    | none => rw [catalog_plugin_openfail hfp hop]; exact hr
    | some h =>
      by_cases hv : (w.modules h).version = some IMAGEIO_VERSION
      · rw [catalog_plugin_goodver hfp hop hv]
        obtain ⟨hin, hout, hie, hoe⟩ := hr
        refine ⟨?_, ?_, hie, hoe⟩
        · dsimp only
          split
          · next hi => exact nonNullMap_register_exts (nonNullMap_mapSet hin hi) hi
          · exact hin
        · dsimp only
          split
          · next ho => exact nonNullMap_register_exts (nonNullMap_mapSet hout ho) ho
          · exact hout
      · rw [catalog_plugin_badver hfp hop hv]; exact hr

theorem foldl_preserves {α β : Type} {P : α → Prop} {f : α → β → α}
    (hstep : ∀ a b, P a → P (f a b)) :
    ∀ (l : List β) (a : α), P a → P (l.foldl f a) := by
  intro l
  induction l with
  | nil => exact fun a ha => ha
  | cons b bs ih => exact fun a ha => ih _ (hstep a b ha)

theorem foldl_preserves_fst {β : Type} {P : Registry → Prop}
    {f : (Registry × List Event) → β → (Registry × List Event)}
    (hstep : ∀ a b, P a.1 → P (f a b).1) :
    ∀ (l : List β) (a : Registry × List Event), P a.1 → P (l.foldl f a).1 := by
  intro l
  induction l with
  | nil => exact fun a ha => ha
  | cons b bs ih => exact fun a ha => ih _ (hstep a b ha)

theorem FactoriesNonNull_process_entry {w : World}
    {acc : Registry × List Event} {dir leaf : String}
    (hr : FactoriesNonNull acc.1) :
    FactoriesNonNull (process_entry w acc dir leaf).1 := by
  unfold process_entry
  cases entry_candidate w dir leaf with
  | none => exact hr
  | some c =>
    obtain ⟨fmt, full⟩ := c
    exact FactoriesNonNull_catalog_plugin hr

theorem FactoriesNonNull_catalog_all {w : World} {reg : Registry}
    {sp : String} (hr : FactoriesNonNull reg) :
    FactoriesNonNull (catalog_all_plugins w reg sp).1 := by
  unfold catalog_all_plugins
  exact foldl_preserves_fst
    (fun a dir ha =>
      foldl_preserves_fst
        (fun a2 leaf ha2 => FactoriesNonNull_process_entry ha2)
        (w.dirEntries dir) a ha)
    _ (reg, ([] : List Event)) hr

theorem FactoriesNonNull_ImageInput_create {w : World} {reg : Registry}
    {fn sp : String} (hr : FactoriesNonNull reg) :
    FactoriesNonNull (ImageInput_create w reg fn sp).1 := by
  unfold ImageInput_create
  by_cases hfn : fn = ""
  · rw [if_pos hfn]; exact hr
  · rw [if_neg hfn]
    dsimp only
    have h1 : FactoriesNonNull
        (if (mapFind (format_of_filename fn) reg.input_formats).isNone = true
         then (catalog_all_plugins w reg sp).1 else reg) := by
      split
      · exact FactoriesNonNull_catalog_all hr
      · exact hr
    split <;> exact h1

theorem FactoriesNonNull_ImageOutput_create {w : World} {reg : Registry}
    {fn sp : String} (hr : FactoriesNonNull reg) :
    FactoriesNonNull (ImageOutput_create w reg fn sp).1 := by
  unfold ImageOutput_create
  by_cases hfn : fn = ""
  · rw [if_pos hfn]; exact hr
  · rw [if_neg hfn]
    dsimp only
    have h1 : FactoriesNonNull
        (if (mapFind (format_of_filename fn) reg.output_formats).isNone = true
         then (catalog_all_plugins w reg sp).1 else reg) := by
      split
      · exact FactoriesNonNull_catalog_all hr
      · exact hr
    split <;> exact h1

theorem FactoriesNonNull_runOp {w : World} {reg : Registry} {op : Op}
    (hr : FactoriesNonNull reg) : FactoriesNonNull (runOp w reg op) := by
  cases op with
  | catalogP f p => exact FactoriesNonNull_catalog_plugin hr
  | catalogAll sp => exact FactoriesNonNull_catalog_all hr
  | createI fn sp => exact FactoriesNonNull_ImageInput_create hr
  | createO fn sp => exact FactoriesNonNull_ImageOutput_create hr

theorem FactoriesNonNull_runOps {w : World} {ops : List Op} :
    FactoriesNonNull (runOps w Registry.empty ops) := by
  refine foldl_preserves (fun a op ha => FactoriesNonNull_runOp ha) ops _ ?_
  refine ⟨?_, ?_, ?_, ?_⟩ <;> intro k v h <;> exact Option.noConfusion h

/-! ## Idempotence machinery -/

theorem isSome_filepaths_catalog_plugin {w : World} {reg : Registry}
    {f2 p2 f : String}
    (h : (mapFind f reg.plugin_filepaths).isSome = true) :
    (mapFind f (catalog_plugin w reg f2 p2).1.plugin_filepaths).isSome = true := by
  cases hfp : mapFind f2 reg.plugin_filepaths with
  | some p =>
    have hres : (catalog_plugin w reg f2 p2).1 = reg := by
      rw [catalog_plugin_already hfp]; split <;> rfl
    rwa [hres]
  | none =>
    cases hop : w.openPlugin p2 with
    | none => rwa [catalog_plugin_openfail hfp hop]
    | some hd =>
      by_cases hv : (w.modules hd).version = some IMAGEIO_VERSION
      · rw [catalog_plugin_goodver hfp hop hv]
        exact isSome_mapFind_mapSet f2 p2 h
      · rwa [catalog_plugin_badver hfp hop hv]

theorem candidateOK_mono {w : World} {reg : Registry} {f p f2 p2 : String}
    (h : candidateOK w reg f p) :
    candidateOK w (catalog_plugin w reg f2 p2).1 f p := by
  rcases h with h | h | h
  · exact Or.inl (isSome_filepaths_catalog_plugin h)
  · exact Or.inr (Or.inl h)
  · exact Or.inr (Or.inr h)

theorem candidateOK_self {w : World} {reg : Registry} {f p : String} :
    candidateOK w (catalog_plugin w reg f p).1 f p := by
  cases hfp : mapFind f reg.plugin_filepaths with
  | some q =>
    have hres : (catalog_plugin w reg f p).1 = reg := by
      rw [catalog_plugin_already hfp]; split <;> rfl
    rw [hres]; exact Or.inl (by simp [hfp])
  | none =>
    cases hop : w.openPlugin p with
    | none => exact Or.inr (Or.inl hop)
    | some hd =>
      by_cases hv : (w.modules hd).version = some IMAGEIO_VERSION
      · rw [catalog_plugin_goodver hfp hop hv]
        exact Or.inl (by simp [mapFind_mapSet_self])
      · exact Or.inr (Or.inr ⟨hd, hop, hv⟩)

theorem catalog_plugin_inert {w : World} {reg : Registry} {f p : String}
    (h : candidateOK w reg f p) : (catalog_plugin w reg f p).1 = reg := by
  rcases h with h | h | h
  · obtain ⟨q, hq⟩ := Option.isSome_iff_exists.mp h
    rw [catalog_plugin_already hq]; split <;> rfl
  · cases hfp : mapFind f reg.plugin_filepaths with
    | some q => rw [catalog_plugin_already hfp]; split <;> rfl
    | none => rw [catalog_plugin_openfail hfp h]
  · obtain ⟨hd, hop, hv⟩ := h
    cases hfp : mapFind f reg.plugin_filepaths with
    | some q => rw [catalog_plugin_already hfp]; split <;> rfl
    | none => rw [catalog_plugin_badver hfp hop hv]

theorem catalog_plugin_no_warn {w : World} {reg : Registry} {f p : String}
    (h : candidateOK w reg f p)
    (hnd : mapFind f reg.plugin_filepaths = none ∨
           mapFind f reg.plugin_filepaths = some p) :
    ∀ a b c, Event.warnDuplicate a b c ∉ (catalog_plugin w reg f p).2 := by
  intro a b c
  rcases hnd with hnd | hnd
  · rcases h with hs | hop | ⟨hd, hop, hv⟩
    · rw [hnd] at hs; exact absurd hs (by simp)
    · rw [catalog_plugin_openfail hnd hop]; simp
    · rw [catalog_plugin_badver hnd hop hv]; simp
  · rw [catalog_plugin_already hnd]; simp

theorem foldl_process_entry_eq_filterMap (w : World) (dir : String) :
    ∀ (entries : List String) (acc : Registry × List Event),
      entries.foldl (fun a leaf => process_entry w a dir leaf) acc =
        (entries.filterMap (entry_candidate w dir)).foldl (flatStep w) acc := by
  intro entries
  induction entries with
  | nil => intro acc; rfl
  | cons leaf rest ih =>
    intro acc
    rw [List.foldl_cons, List.filterMap_cons]
    cases hc : entry_candidate w dir leaf with
    | none =>
      have hpe : process_entry w acc dir leaf = acc := by
        unfold process_entry; rw [hc]
      rw [hpe, ih]
    | some c =>
      obtain ⟨fmt, full⟩ := c
      have hpe : process_entry w acc dir leaf = flatStep w acc (fmt, full) := by
        unfold process_entry flatStep; rw [hc]
      rw [hpe, List.foldl_cons, ih]

theorem catalog_all_eq_flat (w : World) (reg : Registry) (sp : String) :
    catalog_all_plugins w reg sp =
      (scan_list w sp).foldl (flatStep w) (reg, []) := by
  unfold catalog_all_plugins scan_list
  suffices h : ∀ (dirs : List String) (acc : Registry × List Event),
      dirs.foldl
        (fun acc dir =>
          (w.dirEntries dir).foldl (fun a leaf => process_entry w a dir leaf) acc)
        acc =
        (dirs.flatMap
          (fun dir => (w.dirEntries dir).filterMap (entry_candidate w dir))).foldl
          (flatStep w) acc by
    exact h _ _
  intro dirs
  induction dirs with
  | nil => intro acc; rfl
  | cons d ds ih =>
    intro acc
    rw [List.foldl_cons, List.flatMap_cons, List.foldl_append,
      foldl_process_entry_eq_filterMap, ih]

theorem candidateOK_foldl {w : World} {f p : String} :
    ∀ (l : List (String × String)) (acc : Registry × List Event),
      candidateOK w acc.1 f p →
      candidateOK w (l.foldl (flatStep w) acc).1 f p := by
  intro l
  induction l with
  | nil => exact fun acc h => h
  | cons c cs ih =>
    intro acc h
    rw [List.foldl_cons]
    exact ih _ (candidateOK_mono h)

theorem scanOK_after_foldl {w : World} :
    ∀ (l : List (String × String)) (acc : Registry × List Event),
      scanOK w (l.foldl (flatStep w) acc).1 l := by
  intro l
  induction l with
  | nil => intro acc c hc; cases hc
  | cons c cs ih =>
    intro acc c2 hc2
    rw [List.foldl_cons]
    rcases List.mem_cons.mp hc2 with rfl | hmem
    · exact candidateOK_foldl cs _ candidateOK_self
    · exact ih (flatStep w acc c) c2 hmem

theorem foldl_flatStep_inert {w : World} :
    ∀ (l : List (String × String)) (acc : Registry × List Event),
      scanOK w acc.1 l → (l.foldl (flatStep w) acc).1 = acc.1 := by
  intro l
  induction l with
  | nil => intro acc _; rfl
  | cons c cs ih =>
    intro acc h
    rw [List.foldl_cons]
    have hc : candidateOK w acc.1 c.1 c.2 := h c (List.mem_cons_self c cs)
    have hfst : (flatStep w acc c).1 = acc.1 := catalog_plugin_inert hc
    have h2 : scanOK w (flatStep w acc c).1 cs := by
      rw [hfst]
      exact fun c2 m => h c2 (List.mem_cons_of_mem c m)
    rw [ih (flatStep w acc c) h2]
    exact hfst

theorem foldl_flatStep_no_warn {w : World} :
    ∀ (l : List (String × String)) (acc : Registry × List Event),
      scanOK w acc.1 l → noDupCond acc.1 l →
      ∀ a b c, Event.warnDuplicate a b c ∈ (l.foldl (flatStep w) acc).2 →
        Event.warnDuplicate a b c ∈ acc.2 := by
  intro l
  induction l with
  | nil => intro acc _ _ a b c h; exact h
  | cons cd cs ih =>
    intro acc hok hnd a b c hmem
    rw [List.foldl_cons] at hmem
    have hc : candidateOK w acc.1 cd.1 cd.2 := hok cd (List.mem_cons_self cd cs)
    have hd := hnd cd (List.mem_cons_self cd cs)
    have hfst : (flatStep w acc cd).1 = acc.1 := catalog_plugin_inert hc
    have h2 := ih (flatStep w acc cd)
      (by rw [hfst]; exact fun c2 m => hok c2 (List.mem_cons_of_mem cd m))
      (by rw [hfst]; exact fun c2 m => hnd c2 (List.mem_cons_of_mem cd m))
      a b c hmem
    have hev : Event.warnDuplicate a b c ∉ (catalog_plugin w acc.1 cd.1 cd.2).2 :=
      catalog_plugin_no_warn hc hd a b c
    rcases List.mem_append.mp
        (show Event.warnDuplicate a b c ∈
            acc.2 ++ (catalog_plugin w acc.1 cd.1 cd.2).2 from h2) with h3 | h3
    · exact h3
    · exact absurd h3 hev

/-! ## `std::string::find` returns the least occurrence -/

theorem findSub_eq_some_iff (p : List Char) :
    ∀ (l : List Char) (i : Nat),
      findSub p l = some i ↔
        (occursAt p l i ∧ ∀ j < i, ¬ occursAt p l j) := by
  intro l
  induction l with
  | nil =>
    intro i
    unfold findSub
    by_cases hp : p.isPrefixOf ([] : List Char) = true
    · rw [if_pos hp]
      have hocc : ∀ j, occursAt p [] j := by
        intro j
        unfold occursAt
        rw [List.drop_nil]
        exact List.isPrefixOf_iff_prefix.mp hp
      constructor
      · intro h
        injection h with h
        subst h
        exact ⟨hocc 0, by intro j hj; omega⟩
      · rintro ⟨h1, h2⟩
        cases i with
        | zero => rfl
        | succ n => exact absurd (hocc 0) (h2 0 (Nat.succ_pos n))
    · rw [if_neg hp]
      constructor
      · intro h; exact Option.noConfusion h
      · rintro ⟨h1, h2⟩
        unfold occursAt at h1
        rw [List.drop_nil] at h1
        exact absurd (List.isPrefixOf_iff_prefix.mpr h1) hp
  | cons c t ih =>
    intro i
    unfold findSub
    by_cases hp : p.isPrefixOf (c :: t) = true
    · rw [if_pos hp]
      have hocc0 : occursAt p (c :: t) 0 := by
        unfold occursAt
        rw [List.drop_zero]
        exact List.isPrefixOf_iff_prefix.mp hp
      constructor
      · intro h
        injection h with h
        subst h
        exact ⟨hocc0, by intro j hj; omega⟩
      · rintro ⟨h1, h2⟩
        cases i with
        | zero => rfl
        | succ n => exact absurd hocc0 (h2 0 (Nat.succ_pos n))
    · rw [if_neg hp]
      have hnocc0 : ¬ occursAt p (c :: t) 0 := by
        unfold occursAt
        rw [List.drop_zero]
        exact fun hpre => hp (List.isPrefixOf_iff_prefix.mpr hpre)
      cases i with
      | zero =>
        rw [Option.map_eq_some']
        constructor
        · rintro ⟨m, hm, hcontra⟩
          exact absurd hcontra (by omega)
        · rintro ⟨h1, h2⟩
          exact absurd h1 hnocc0
      | succ n =>
        rw [Option.map_eq_some']
        constructor
        · rintro ⟨m, hm, hmn⟩
          rw [show m = n by omega] at hm
          obtain ⟨h1, h2⟩ := (ih n).mp hm
          refine ⟨?_, ?_⟩
          · unfold occursAt at h1 ⊢
            rwa [List.drop_succ_cons]
          · intro j hj
            cases j with
            | zero => exact hnocc0
            | succ j2 =>
              have hlt : j2 < n := by omega
              have h3 := h2 j2 hlt
              unfold occursAt at h3 ⊢
              rwa [List.drop_succ_cons]
        · rintro ⟨h1, h2⟩
          refine ⟨n, (ih n).mpr ⟨?_, ?_⟩, rfl⟩
          · unfold occursAt at h1 ⊢
            rwa [List.drop_succ_cons] at h1
          · intro j hj
            have h3 := h2 (j + 1) (by omega)
            unfold occursAt at h3 ⊢
            rwa [List.drop_succ_cons] at h3

theorem occursAt_sub_iff_suffix (p l : List Char) :
    occursAt p l (l.length - p.length) ↔ p <:+ l := by
  unfold occursAt
  constructor
  · intro h
    have h1 := h.length_le
    rw [List.length_drop] at h1
    have hle : p.length ≤ l.length := by omega
    have heq : p = l.drop (l.length - p.length) := by
      apply h.eq_of_length
      rw [List.length_drop]
      omega
    rw [List.suffix_iff_eq_drop]
    exact heq
  · intro h
    rw [List.suffix_iff_eq_drop] at h
    rw [← h]

/-! ## Lower-casing removes all ASCII uppercase letters -/

theorem toNat_toLower (c : Char) :
    (Char.toLower c).toNat =
      if 65 ≤ c.toNat ∧ c.toNat ≤ 90 then c.toNat + 32 else c.toNat := by
  unfold Char.toLower
  by_cases h : 65 ≤ c.toNat ∧ c.toNat ≤ 90
  · rw [if_pos h]
    rw [if_pos (by omega : c.toNat ≥ 65 ∧ c.toNat ≤ 90)]
    have hval : (c.toNat + 32).isValidChar := Or.inl (by omega)
    rw [Char.ofNat, dif_pos hval]
    simp [Char.ofNatAux, Char.toNat, UInt32.toNat]
  · rw [if_neg h]
    rw [if_neg (by omega : ¬(c.toNat ≥ 65 ∧ c.toNat ≤ 90))]

theorem hasUpper_to_lower (s : String) : hasUpper (to_lower s) = false := by
  unfold hasUpper to_lower
  rw [List.any_eq_false]
  intro c hc
  rw [List.mem_map] at hc
  obtain ⟨c0, hc0mem, hc0⟩ := hc
  subst hc0
  have hgoal : ¬(65 ≤ (Char.toLower c0).toNat ∧ (Char.toLower c0).toNat ≤ 90) := by
    rw [toNat_toLower]
    by_cases h : 65 ≤ c0.toNat ∧ c0.toNat ≤ 90
    · rw [if_pos h]; omega
    · rw [if_neg h]; omega
  simp only [Bool.and_eq_true, decide_eq_true_eq]
  exact hgoal

/-! ## Dispatcher characterisation helpers -/

theorem ImageInput_create_spec (w : World) (reg : Registry) (fn sp : String)
    (hfn : fn ≠ "") :
    ((ImageInput_create w reg fn sp).2 =
        CreateResult.err (CreateError.pluginNotFound fn sp) ↔
      mapFind (format_of_filename fn)
        (ImageInput_create w reg fn sp).1.input_formats = none) ∧
    (∀ f, (ImageInput_create w reg fn sp).2 = CreateResult.ok f →
      mapFind (format_of_filename fn)
        (ImageInput_create w reg fn sp).1.input_formats = some f) ∧
    (∀ e, (ImageInput_create w reg fn sp).2 = CreateResult.err e →
      e = CreateError.pluginNotFound fn sp) := by
  unfold ImageInput_create
  rw [if_neg hfn]
  dsimp only
  cases hm : mapFind (format_of_filename fn)
      (if (mapFind (format_of_filename fn) reg.input_formats).isNone = true
       then (catalog_all_plugins w reg sp).1 else reg).input_formats with
  | none => simp only [hm]; refine ⟨?_, ?_, ?_⟩ <;> simp [hm]
  | some g =>
    simp only [hm]
    refine ⟨?_, ?_, ?_⟩ <;> simp [hm]

theorem ImageOutput_create_spec (w : World) (reg : Registry) (fn sp : String)
    (hfn : fn ≠ "") :
    ((ImageOutput_create w reg fn sp).2 =
        CreateResult.err (CreateError.pluginNotFound fn sp) ↔
      mapFind (format_of_filename fn)
        (ImageOutput_create w reg fn sp).1.output_formats = none) ∧
    (∀ f, (ImageOutput_create w reg fn sp).2 = CreateResult.ok f →
      mapFind (format_of_filename fn)
        (ImageOutput_create w reg fn sp).1.output_formats = some f) ∧
    (∀ e, (ImageOutput_create w reg fn sp).2 = CreateResult.err e →
      e = CreateError.pluginNotFound fn sp) := by
  unfold ImageOutput_create
  rw [if_neg hfn]
  dsimp only
  cases hm : mapFind (format_of_filename fn)
      (if (mapFind (format_of_filename fn) reg.output_formats).isNone = true
       then (catalog_all_plugins w reg sp).1 else reg).output_formats with
  | none => simp only [hm]; refine ⟨?_, ?_, ?_⟩ <;> simp [hm]
  | some g =>
    simp only [hm]
    refine ⟨?_, ?_, ?_⟩ <;> simp [hm]

theorem ImageInput_create_empty_iff (w : World) (reg : Registry)
    (fn sp : String) :
    ((ImageInput_create w reg fn sp).2 =
        CreateResult.err CreateError.invalidArgument) ↔ fn = "" := by
  by_cases hfn : fn = ""
  · simp [ImageInput_create, hfn]
  · simp only [hfn, iff_false]
    intro hcontra
    have h3 := (ImageInput_create_spec w reg fn sp hfn).2.2 _ hcontra
    exact CreateError.noConfusion h3

theorem ImageOutput_create_empty_iff (w : World) (reg : Registry)
    (fn sp : String) :
    ((ImageOutput_create w reg fn sp).2 =
        CreateResult.err CreateError.invalidArgument) ↔ fn = "" := by
  by_cases hfn : fn = ""
  · simp [ImageOutput_create, hfn]
  · simp only [hfn, iff_false]
    intro hcontra
    have h3 := (ImageOutput_create_spec w reg fn sp hfn).2.2 _ hcontra
    exact CreateError.noConfusion h3

theorem create_ok_ne_zero_input {w : World} {reg : Registry} {fn sp : String}
    {f : Nat} (hr : FactoriesNonNull reg)
    (h : (ImageInput_create w reg fn sp).2 = CreateResult.ok f) : f ≠ 0 := by
  by_cases hfn : fn = ""
  · unfold ImageInput_create at h
    rw [if_pos hfn] at h
    exact CreateResult.noConfusion h
  · have hfind := (ImageInput_create_spec w reg fn sp hfn).2.1 f h
    exact FactoriesNonNull_ImageInput_create hr |>.1 _ _ hfind

theorem create_ok_ne_zero_output {w : World} {reg : Registry} {fn sp : String}
    {f : Nat} (hr : FactoriesNonNull reg)
    (h : (ImageOutput_create w reg fn sp).2 = CreateResult.ok f) : f ≠ 0 := by
  by_cases hfn : fn = ""
  · unfold ImageOutput_create at h
    rw [if_pos hfn] at h
    exact CreateResult.noConfusion h
  · have hfind := (ImageOutput_create_spec w reg fn sp hfn).2.1 f h
    exact FactoriesNonNull_ImageOutput_create hr |>.2.1 _ _ hfind


/-! ## Claim theorems -/

/-- C1: for every filename and search path, `ImageInput::create` /
`ImageOutput::create` fail exactly in two cases — an empty filename fails
with `InvalidArgument`, and a derived key with no registered factory even
after the catalog scan fails with `PluginNotFound` carrying the filename
and the search path; in every other case the resolved factory is invoked
and the new instance returned. -/
theorem C1_create_failure_modes (w : World) (reg : Registry) (fn sp : String) :
    (((ImageInput_create w reg fn sp).2 =
        CreateResult.err CreateError.invalidArgument) ↔ fn = "") ∧
    (((ImageOutput_create w reg fn sp).2 =
        CreateResult.err CreateError.invalidArgument) ↔ fn = "") ∧
    (∀ e, (ImageInput_create w reg fn sp).2 = CreateResult.err e →
      e = CreateError.invalidArgument ∨ e = CreateError.pluginNotFound fn sp) ∧
    (∀ e, (ImageOutput_create w reg fn sp).2 = CreateResult.err e →
      e = CreateError.invalidArgument ∨ e = CreateError.pluginNotFound fn sp) ∧
    (fn ≠ "" →
      (((ImageInput_create w reg fn sp).2 =
          CreateResult.err (CreateError.pluginNotFound fn sp)) ↔
        mapFind (format_of_filename fn)
          (ImageInput_create w reg fn sp).1.input_formats = none) ∧
      (∀ f, (ImageInput_create w reg fn sp).2 = CreateResult.ok f →
        mapFind (format_of_filename fn)
          (ImageInput_create w reg fn sp).1.input_formats = some f) ∧
      (((ImageOutput_create w reg fn sp).2 =
          CreateResult.err (CreateError.pluginNotFound fn sp)) ↔
        mapFind (format_of_filename fn)
          (ImageOutput_create w reg fn sp).1.output_formats = none) ∧
      (∀ f, (ImageOutput_create w reg fn sp).2 = CreateResult.ok f →
        mapFind (format_of_filename fn)
          (ImageOutput_create w reg fn sp).1.output_formats = some f)) := by
  refine ⟨ImageInput_create_empty_iff w reg fn sp,
    ImageOutput_create_empty_iff w reg fn sp, ?_, ?_, ?_⟩
  · intro e he
    by_cases hfn : fn = ""
    · left
      unfold ImageInput_create at he
      rw [if_pos hfn] at he
      injection he with he
      exact he.symm
    · right
      exact (ImageInput_create_spec w reg fn sp hfn).2.2 e he
  · intro e he
    by_cases hfn : fn = ""
    · left
      unfold ImageOutput_create at he
      rw [if_pos hfn] at he
      injection he with he
      exact he.symm
    · right
      exact (ImageOutput_create_spec w reg fn sp hfn).2.2 e he
  · intro hfn
    exact ⟨(ImageInput_create_spec w reg fn sp hfn).1,
      (ImageInput_create_spec w reg fn sp hfn).2.1,
      (ImageOutput_create_spec w reg fn sp hfn).1,
      (ImageOutput_create_spec w reg fn sp hfn).2.1⟩

/-- Witness for C1 at concrete inputs: an empty filename fails with
`InvalidArgument`, and `photo.tiff` in the png-only world fails exactly
when its key is absent from the scanned registry. -/
theorem C1_create_failure_modes_witness :
    ((ImageInput_create wPng Registry.empty "" "/plugins").2 =
      CreateResult.err CreateError.invalidArgument) ∧
    (((ImageInput_create wPng Registry.empty "photo.tiff" "/plugins").2 =
        CreateResult.err (CreateError.pluginNotFound "photo.tiff" "/plugins")) ↔
      mapFind (format_of_filename "photo.tiff")
        (ImageInput_create wPng Registry.empty
          "photo.tiff" "/plugins").1.input_formats = none) :=
  ⟨(C1_create_failure_modes wPng Registry.empty "" "/plugins").1.mpr rfl,
   ((C1_create_failure_modes wPng Registry.empty "photo.tiff" "/plugins").2.2.2.2
      (by decide)).1⟩

/-- C3: when the format name already has a recorded path, `catalog_plugin`
is a silent no-op if the paths agree, and otherwise warns (naming both
paths), keeps the registry unchanged, and never opens the new module. -/
theorem C3_duplicate_handling (w : World) (reg : Registry)
    (fmt path p : String)
    (h : mapFind fmt reg.plugin_filepaths = some p) :
    (p = path → catalog_plugin w reg fmt path = (reg, [])) ∧
    (p ≠ path →
      catalog_plugin w reg fmt path =
        (reg, [Event.warnDuplicate fmt p path])) := by
  constructor
  · intro hp
    rw [catalog_plugin_already h, if_pos hp]
  · intro hp
    rw [catalog_plugin_already h, if_neg hp]

/-- Witness for C3: in a registry already recording `png` at `/p/a`, the
same path is a no-op and a different path yields only the warning. -/
theorem C3_duplicate_handling_witness :
    catalog_plugin wPng regWithPng "png" "/p/a.imageio.so" = (regWithPng, []) ∧
    catalog_plugin wPng regWithPng "png" "/p/b.imageio.so" =
      (regWithPng,
       [Event.warnDuplicate "png" "/p/a.imageio.so" "/p/b.imageio.so"]) :=
  ⟨(C3_duplicate_handling wPng regWithPng "png" "/p/a.imageio.so"
      "/p/a.imageio.so" (by decide)).1 rfl,
   (C3_duplicate_handling wPng regWithPng "png" "/p/b.imageio.so"
      "/p/a.imageio.so" (by decide)).2 (by decide)⟩

/-- C9: in every registry state reachable by catalog and create
operations, all stored factories are non-null, so a successful dispatch
always invokes a non-null factory. -/
theorem C9_factories_non_null (w : World) (ops : List Op) :
    FactoriesNonNull (runOps w Registry.empty ops) ∧
    (∀ fn sp f,
      (ImageInput_create w (runOps w Registry.empty ops) fn sp).2 =
        CreateResult.ok f → f ≠ 0) ∧
    (∀ fn sp f,
      (ImageOutput_create w (runOps w Registry.empty ops) fn sp).2 =
        CreateResult.ok f → f ≠ 0) :=
  ⟨FactoriesNonNull_runOps,
   fun _ _ _ h => create_ok_ne_zero_input FactoriesNonNull_runOps h,
   fun _ _ _ h => create_ok_ne_zero_output FactoriesNonNull_runOps h⟩

/-- Witness for C9: after scanning `/plugins`, dispatching `photo.png`
invokes factory 7, which is non-null. -/
theorem C9_factories_non_null_witness : (7 : Nat) ≠ 0 :=
  (C9_factories_non_null wPng [Op.catalogAll "/plugins"]).2.1
    "photo.png" "/plugins" 7 (by decide)


/-- C2 fails on the code: a version-valid module exporting neither factory
is closed, but the path and handle bookkeeping IS mutated (lines 117–119
run before the usefulness check), so the registry does not stay unchanged. -/
theorem C2_counterexample :
    (wNoFac.modules 1).version = some IMAGEIO_VERSION ∧
    (wNoFac.modules 1).getsym ("nul" ++ "_output_imageio_create") = 0 ∧
    (wNoFac.modules 1).getsym ("nul" ++ "_input_imageio_create") = 0 ∧
    wNoFac.openPlugin "/p/nul.imageio.so" = some 1 ∧
    mapFind "nul" Registry.empty.plugin_filepaths = none ∧
    (catalog_plugin wNoFac Registry.empty "nul" "/p/nul.imageio.so").1 ≠
      Registry.empty ∧
    (catalog_plugin wNoFac Registry.empty
      "nul" "/p/nul.imageio.so").1.plugin_filepaths =
      [("nul", "/p/nul.imageio.so")] := by decide

/-- C2 (amended): a module whose version symbol is absent or mismatched is
closed and causes zero registry mutation; a version-valid module with
neither factory is closed and leaves all four factory maps unchanged, but
its format name is recorded in the path and handle bookkeeping. -/
theorem C2_validation_gate (w : World) (reg : Registry) (fmt path : String)
    (h1 : mapFind fmt reg.plugin_filepaths = none) :
    ∀ h, w.openPlugin path = some h →
      ((w.modules h).version ≠ some IMAGEIO_VERSION →
        catalog_plugin w reg fmt path =
          (reg, [Event.opened path, Event.closed h])) ∧
      ((w.modules h).version = some IMAGEIO_VERSION →
       (w.modules h).getsym (fmt ++ "_output_imageio_create") = 0 →
       (w.modules h).getsym (fmt ++ "_input_imageio_create") = 0 →
        catalog_plugin w reg fmt path =
          ({ reg with
             plugin_filepaths := mapSet fmt path reg.plugin_filepaths,
             plugin_handles := mapSet fmt h reg.plugin_handles },
           [Event.opened path, Event.closed h])) := by
  intro h hop
  constructor
  · intro hv
    exact catalog_plugin_badver h1 hop hv
  · intro hv ho hi
    have e1 := catalog_plugin_goodver h1 hop hv
    have e2 := catalog_plugin_goodver_events h1 hop hv
    refine Prod.ext ?_ ?_
    · rw [e1]
      simp [ho, hi]
    · rw [e2]
      simp [ho, hi]

/-- Witness for C2 (amended): the version-mismatch plugin mutates nothing;
the factory-less plugin mutates exactly the bookkeeping maps. -/
theorem C2_validation_gate_witness :
    catalog_plugin wBadVer Registry.empty "bad" "/p/bad.imageio.so" =
      (Registry.empty, [Event.opened "/p/bad.imageio.so", Event.closed 3]) ∧
    catalog_plugin wNoFac Registry.empty "nul" "/p/nul.imageio.so" =
      ({ Registry.empty with
         plugin_filepaths :=
           mapSet "nul" "/p/nul.imageio.so" Registry.empty.plugin_filepaths,
         plugin_handles := mapSet "nul" 1 Registry.empty.plugin_handles },
       [Event.opened "/p/nul.imageio.so", Event.closed 1]) :=
  ⟨((C2_validation_gate wBadVer Registry.empty "bad" "/p/bad.imageio.so"
      (by decide)) 3 (by decide)).1 (by decide),
   ((C2_validation_gate wNoFac Registry.empty "nul" "/p/nul.imageio.so"
      (by decide)) 1 (by decide)).2 (by decide) (by decide) (by decide)⟩

/-- C4 fails on the code: plugin `aaa` claims extension key `png`
(factory 5); a later plugin whose format NAME is `png` overwrites that key
by its unconditional by-name registration (factory 9), so the later
discovery does not leave the key's factory unchanged. -/
theorem C4_counterexample :
    mapFind "png"
      ((catalog_plugin wOvr Registry.empty
        "aaa" "/p/aaa.imageio.so").1).input_formats = some 5 ∧
    mapFind "png"
      ((catalog_plugin wOvr
        (catalog_plugin wOvr Registry.empty "aaa" "/p/aaa.imageio.so").1
        "png" "/p/png.imageio.so").1).input_formats = some 9 := by decide

/-- C4 (amended): first-registration-wins holds for every key against any
later plugin whose format name differs from the key: extension
registrations are insert-if-absent and never overwrite, so in particular
two plugins registering the same extension under different format names
leave the first factory in place; only a later plugin whose format name
EQUALS the key overwrites it. -/
theorem C4_first_wins_except_name (w : World) (reg : Registry)
    (fmt path k : String) (v : Nat) (hk : fmt ≠ k) :
    (mapFind k reg.input_formats = some v →
      mapFind k (catalog_plugin w reg fmt path).1.input_formats = some v) ∧
    (mapFind k reg.output_formats = some v →
      mapFind k (catalog_plugin w reg fmt path).1.output_formats = some v) := by
  cases hfp : mapFind fmt reg.plugin_filepaths with
  | some p =>
    have hres : (catalog_plugin w reg fmt path).1 = reg := by
      rw [catalog_plugin_already hfp]
      split <;> rfl
    rw [hres]
    exact ⟨fun hv => hv, fun hv => hv⟩
  | none =>
    cases hop : w.openPlugin path with
    | none =>
      rw [catalog_plugin_openfail hfp hop]
      exact ⟨fun hv => hv, fun hv => hv⟩
    | some hd =>
      by_cases hv : (w.modules hd).version = some IMAGEIO_VERSION
      · rw [catalog_plugin_goodver hfp hop hv]
        constructor
        · intro hsome
          dsimp only
          split
          · exact mapFind_register_exts_of_some
              (by rw [mapFind_mapSet_ne _ _ hk]; exact hsome)
          · exact hsome
        · intro hsome
          dsimp only
          split
          · exact mapFind_register_exts_of_some
              (by rw [mapFind_mapSet_ne _ _ hk]; exact hsome)
          · exact hsome
      · rw [catalog_plugin_badver hfp hop hv]
        exact ⟨fun hv2 => hv2, fun hv2 => hv2⟩

/-- Witness for C4 (amended): plugin `ccc` also lists extension `png`, but
the earlier binding `png ↦ 5` survives its registration. -/
theorem C4_first_wins_except_name_witness :
    mapFind "png"
      ((catalog_plugin wOvr
        (catalog_plugin wOvr Registry.empty "aaa" "/p/aaa.imageio.so").1
        "ccc" "/p/ccc.imageio.so").1).input_formats = some 5 :=
  (C4_first_wins_except_name wOvr
    (catalog_plugin wOvr Registry.empty "aaa" "/p/aaa.imageio.so").1
    "ccc" "/p/ccc.imageio.so" "png" 5 (by decide)).1 (by decide)


/-- C7 fails on the code: the module lists output extension `FOO`, yet the
dedicated `output_extensions` map stays empty — the lower-cased key `foo`
is registered in the by-name map `output_formats` instead (the code writes
extensions into the same map that holds format names). -/
theorem C7_counterexample :
    (wC7.modules 1).getExts ("png" ++ "_output_extensions") = ["FOO"] ∧
    ((catalog_plugin wC7 Registry.empty
      "png" "/p/png.imageio.so").1).output_extensions = [] ∧
    ((catalog_plugin wC7 Registry.empty
      "png" "/p/png.imageio.so").1).input_extensions = [] ∧
    mapFind "foo"
      ((catalog_plugin wC7 Registry.empty
        "png" "/p/png.imageio.so").1).output_formats = some 4 := by decide

/-- C7 (amended): a found output (input) factory is registered under the
format name in `output_formats` (`input_formats`), and every lower-cased
extension is registered insert-if-absent into that SAME map; the declared
`input_extensions` / `output_extensions` maps are never written. -/
theorem C7_registration_maps (w : World) (reg : Registry)
    (fmt path : String) :
    ((catalog_plugin w reg fmt path).1.input_extensions =
      reg.input_extensions ∧
     (catalog_plugin w reg fmt path).1.output_extensions =
      reg.output_extensions) ∧
    (∀ h, mapFind fmt reg.plugin_filepaths = none →
      w.openPlugin path = some h →
      (w.modules h).version = some IMAGEIO_VERSION →
      ((w.modules h).getsym (fmt ++ "_output_imageio_create") ≠ 0 →
        mapFind fmt (catalog_plugin w reg fmt path).1.output_formats =
          some ((w.modules h).getsym (fmt ++ "_output_imageio_create")) ∧
        ∀ e ∈ (w.modules h).getExts (fmt ++ "_output_extensions"),
          (mapFind (to_lower e)
            (catalog_plugin w reg fmt path).1.output_formats).isSome = true) ∧
      ((w.modules h).getsym (fmt ++ "_input_imageio_create") ≠ 0 →
        mapFind fmt (catalog_plugin w reg fmt path).1.input_formats =
          some ((w.modules h).getsym (fmt ++ "_input_imageio_create")) ∧
        ∀ e ∈ (w.modules h).getExts (fmt ++ "_input_extensions"),
          (mapFind (to_lower e)
            (catalog_plugin w reg fmt path).1.input_formats).isSome = true)) := by
  constructor
  · cases hfp : mapFind fmt reg.plugin_filepaths with
    | some p =>
      have hres : (catalog_plugin w reg fmt path).1 = reg := by
        rw [catalog_plugin_already hfp]
        split <;> rfl
      rw [hres]
      exact ⟨rfl, rfl⟩
    | none =>
      cases hop : w.openPlugin path with
      | none =>
        rw [catalog_plugin_openfail hfp hop]
        exact ⟨rfl, rfl⟩
      | some hd =>
        by_cases hv : (w.modules hd).version = some IMAGEIO_VERSION
        · rw [catalog_plugin_goodver hfp hop hv]
          exact ⟨rfl, rfl⟩
        · rw [catalog_plugin_badver hfp hop hv]
          exact ⟨rfl, rfl⟩
  · intro h hfp hop hv
    constructor
    · intro hof
      rw [catalog_plugin_goodver hfp hop hv]
      dsimp only
      rw [if_pos hof]
      constructor
      · exact mapFind_register_exts_of_some (mapFind_mapSet_self _ _ _)
      · intro e he
        exact isSome_mapFind_register_exts_mem he
    · intro hif
      rw [catalog_plugin_goodver hfp hop hv]
      dsimp only
      rw [if_pos hif]
      constructor
      · exact mapFind_register_exts_of_some (mapFind_mapSet_self _ _ _)
      · intro e he
        exact isSome_mapFind_register_exts_mem he

/-- Witness for C7 (amended): the png output factory 4 lands under `png`
in `output_formats`, and the lower-cased extension key is present there. -/
theorem C7_registration_maps_witness :
    mapFind "png"
      ((catalog_plugin wC7 Registry.empty
        "png" "/p/png.imageio.so").1).output_formats = some 4 ∧
    (mapFind (to_lower "FOO")
      ((catalog_plugin wC7 Registry.empty
        "png" "/p/png.imageio.so").1).output_formats).isSome = true := by
  have hmain := ((C7_registration_maps wC7 Registry.empty
    "png" "/p/png.imageio.so").2 1 (by decide) (by decide) (by decide)).1
    (by decide)
  exact ⟨hmain.1, hmain.2 "FOO" (by decide)⟩


/-- C5 fails on the code as universally stated: with the same format name
in two directories, the duplicate warning is emitted again on the second
pass (the path-equality check only short-circuits the candidate that owns
the recorded path). -/
theorem C5_counterexample :
    Event.warnDuplicate "x" "/a/x.imageio.so" "/b/x.imageio.so" ∈
      (catalog_all_plugins wDup
        (catalog_all_plugins wDup Registry.empty "/a:/b").1 "/a:/b").2 := by
  decide

/-- C5 (amended): a second scan over an unchanged search path and
filesystem never changes the registry; and it emits no duplicate-plugin
warning provided no scanned candidate's format name is recorded under a
different path after the first pass. -/
theorem C5_idempotent_scan (w : World) (reg : Registry) (sp : String) :
    ((catalog_all_plugins w (catalog_all_plugins w reg sp).1 sp).1 =
      (catalog_all_plugins w reg sp).1) ∧
    (noDupCond (catalog_all_plugins w reg sp).1 (scan_list w sp) →
      ∀ a b c, Event.warnDuplicate a b c ∉
        (catalog_all_plugins w (catalog_all_plugins w reg sp).1 sp).2) := by
  have hr1 : (catalog_all_plugins w reg sp).1 =
      ((scan_list w sp).foldl (flatStep w) (reg, [])).1 := by
    rw [catalog_all_eq_flat]
  have hok : scanOK w (catalog_all_plugins w reg sp).1 (scan_list w sp) := by
    rw [hr1]
    exact scanOK_after_foldl (scan_list w sp) (reg, [])
  constructor
  · rw [catalog_all_eq_flat w (catalog_all_plugins w reg sp).1 sp]
    exact foldl_flatStep_inert (scan_list w sp) _ hok
  · intro hnd a b c hmem
    rw [catalog_all_eq_flat w (catalog_all_plugins w reg sp).1 sp] at hmem
    have hnil := foldl_flatStep_no_warn (scan_list w sp)
      ((catalog_all_plugins w reg sp).1, []) hok hnd a b c hmem
    exact absurd hnil (List.not_mem_nil _)

/-- Witness for C5 (amended): the unique png plugin triggers no duplicate
warning on the second pass. -/
theorem C5_idempotent_scan_witness :
    Event.warnDuplicate "png"
      "/plugins/png.imageio.so" "/plugins/png.imageio.so" ∉
      (catalog_all_plugins wPng
        (catalog_all_plugins wPng Registry.empty "/plugins").1 "/plugins").2 :=
  (C5_idempotent_scan wPng Registry.empty "/plugins").2 (by decide)
    "png" "/plugins/png.imageio.so" "/plugins/png.imageio.so"

/-- Two non-empty filenames with the same derived key drive
`ImageInput::create` identically up to the error payload: same final
registry, and the same factory invocations. -/
theorem create_same_key_input (w : World) (reg : Registry) (sp : String)
    {fn1 fn2 : String} (h1 : fn1 ≠ "") (h2 : fn2 ≠ "")
    (hk : format_of_filename fn1 = format_of_filename fn2) :
    (ImageInput_create w reg fn1 sp).1 = (ImageInput_create w reg fn2 sp).1 ∧
    (∀ f, (ImageInput_create w reg fn1 sp).2 = CreateResult.ok f ↔
      (ImageInput_create w reg fn2 sp).2 = CreateResult.ok f) := by
  unfold ImageInput_create
  rw [if_neg h1, if_neg h2]
  dsimp only
  rw [hk]
  cases hm : mapFind (format_of_filename fn2)
      (if (mapFind (format_of_filename fn2) reg.input_formats).isNone = true
       then (catalog_all_plugins w reg sp).1 else reg).input_formats with
  | none => simp [hm]
  | some g => simp [hm]

/-- Output-side analogue of `create_same_key_input`. -/
theorem create_same_key_output (w : World) (reg : Registry) (sp : String)
    {fn1 fn2 : String} (h1 : fn1 ≠ "") (h2 : fn2 ≠ "")
    (hk : format_of_filename fn1 = format_of_filename fn2) :
    (ImageOutput_create w reg fn1 sp).1 = (ImageOutput_create w reg fn2 sp).1 ∧
    (∀ f, (ImageOutput_create w reg fn1 sp).2 = CreateResult.ok f ↔
      (ImageOutput_create w reg fn2 sp).2 = CreateResult.ok f) := by
  unfold ImageOutput_create
  rw [if_neg h1, if_neg h2]
  dsimp only
  rw [hk]
  cases hm : mapFind (format_of_filename fn2)
      (if (mapFind (format_of_filename fn2) reg.output_formats).isNone = true
       then (catalog_all_plugins w reg sp).1 else reg).output_formats with
  | none => simp [hm]
  | some g => simp [hm]

/-- C6: for every non-empty filename the dispatchers derive the lookup key
exactly as the claim states (extension, else the whole filename; one
leading dot stripped; lower-cased); hence `photo.PNG` and `photo.png`
resolve to the same factory and a bare `png` is usable as a filename. -/
theorem C6_key_derivation (fn : String) (hfn : fn ≠ "") :
    format_of_filename fn = claim_key fn ∧
    format_of_filename "photo.PNG" = format_of_filename "photo.png" ∧
    (∀ w reg sp f,
      ((ImageInput_create w reg "photo.PNG" sp).2 = CreateResult.ok f ↔
       (ImageInput_create w reg "photo.png" sp).2 = CreateResult.ok f)) ∧
    (∀ w reg sp f,
      ((ImageOutput_create w reg "photo.PNG" sp).2 = CreateResult.ok f ↔
       (ImageOutput_create w reg "photo.png" sp).2 = CreateResult.ok f)) ∧
    format_of_filename "png" = "png" := by
  refine ⟨rfl, by decide, ?_, ?_, by decide⟩
  · intro w reg sp f
    exact (create_same_key_input w reg sp (by decide) (by decide)
      (by decide)).2 f
  · intro w reg sp f
    exact (create_same_key_output w reg sp (by decide) (by decide)
      (by decide)).2 f

/-- Witness for C6 at the concrete filename `photo.PNG`. -/
theorem C6_key_derivation_witness :
    format_of_filename "photo.PNG" = claim_key "photo.PNG" ∧
    format_of_filename "png" = "png" :=
  ⟨(C6_key_derivation "photo.PNG" (by decide)).1,
   (C6_key_derivation "photo.PNG" (by decide)).2.2.2.2⟩


/-- C8 fails on the code as stated: `x.imageio.so.imageio.so` ends with
the plugin suffix and its module would load and validate, yet the scan
ignores it, because the code compares the FIRST occurrence of the suffix
(`leaf.find(pattern)`) with the end position. -/
theorem C8_counterexample :
    endsWithStr "x.imageio.so.imageio.so" (plugin_pattern wSuf) = true ∧
    wSuf.openPlugin "/d/x.imageio.so.imageio.so" = some 1 ∧
    (wSuf.modules 1).version = some IMAGEIO_VERSION ∧
    wSuf.dirEntries "/d" = ["x.imageio.so.imageio.so"] ∧
    catalog_all_plugins wSuf Registry.empty "/d" = (Registry.empty, []) := by
  decide

/-- C8 (amended): an entry is a plugin candidate iff the FIRST occurrence
of the suffix `".imageio." + platformModuleExtension` in its leaf is at
`leaf.length - suffix.length` (so the leaf ends with the suffix AND the
suffix occurs nowhere earlier); the format name is the leaf with the
suffix stripped, the path is `dir/leaf`, and the scan folds
`catalog_plugin` over exactly these candidates of every directory of the
split search path. -/
theorem C8_scan_convention (w : World) (reg : Registry)
    (sp dir leaf fmt full : String) :
    (entry_candidate w dir leaf = some (fmt, full) →
      fmt = String.mk (leaf.data.take
        (leaf.data.length - (plugin_pattern w).data.length)) ∧
      full = dir ++ "/" ++ leaf ∧
      (plugin_pattern w).data <:+ leaf.data ∧
      (∀ j < leaf.data.length - (plugin_pattern w).data.length,
        ¬ occursAt (plugin_pattern w).data leaf.data j)) ∧
    ((occursAt (plugin_pattern w).data leaf.data
        (leaf.data.length - (plugin_pattern w).data.length) ∧
      ∀ j < leaf.data.length - (plugin_pattern w).data.length,
        ¬ occursAt (plugin_pattern w).data leaf.data j) →
      entry_candidate w dir leaf =
        some (String.mk (leaf.data.take
            (leaf.data.length - (plugin_pattern w).data.length)),
          dir ++ "/" ++ leaf)) ∧
    catalog_all_plugins w reg sp =
      (scan_list w sp).foldl (flatStep w) (reg, []) := by
  refine ⟨?_, ?_, catalog_all_eq_flat w reg sp⟩
  · intro hc
    unfold entry_candidate at hc
    cases hf : strFind leaf (plugin_pattern w) with
    | none =>
      rw [hf] at hc
      exact Option.noConfusion hc
    | some found =>
      rw [hf] at hc
      dsimp only at hc
      by_cases hfound : found =
          leaf.data.length - (plugin_pattern w).data.length
      · rw [if_pos hfound] at hc
        injection hc with hpair
        have hfmt : fmt = String.mk (leaf.data.take
            (leaf.data.length - (plugin_pattern w).data.length)) :=
          (congrArg Prod.fst hpair).symm
        have hfull : full = dir ++ "/" ++ leaf :=
          (congrArg Prod.snd hpair).symm
        have hspec :=
          (findSub_eq_some_iff (plugin_pattern w).data leaf.data found).mp hf
        rw [hfound] at hspec
        exact ⟨hfmt, hfull,
          (occursAt_sub_iff_suffix (plugin_pattern w).data leaf.data).mp
            hspec.1,
          hspec.2⟩
      · rw [if_neg hfound] at hc
        exact Option.noConfusion hc
  · rintro ⟨hocc, hmin⟩
    have hf : strFind leaf (plugin_pattern w) =
        some (leaf.data.length - (plugin_pattern w).data.length) :=
      (findSub_eq_some_iff (plugin_pattern w).data leaf.data _).mpr
        ⟨hocc, hmin⟩
    unfold entry_candidate
    rw [hf]
    dsimp only
    rw [if_pos rfl]

/-- Witness for C8 (amended): `png.imageio.so` is a candidate with format
name `png` and full path `/plugins/png.imageio.so`. -/
theorem C8_scan_convention_witness :
    entry_candidate wPng "/plugins" "png.imageio.so" =
      some (String.mk (("png.imageio.so".data).take
          (("png.imageio.so".data).length -
            ((plugin_pattern wPng).data).length)),
        "/plugins" ++ "/" ++ "png.imageio.so") :=
  (C8_scan_convention wPng Registry.empty "" "/plugins" "png.imageio.so"
    "png" "x").2.1 ⟨by decide, by decide⟩

/-- The dispatcher key never contains an ASCII uppercase letter. -/
theorem hasUpper_format_of_filename (fn : String) :
    hasUpper (format_of_filename fn) = false :=
  hasUpper_to_lower _

/-- C10: a format name scanned with an uppercase letter is stored verbatim
by `catalog_plugin`, while the dispatchers lower-case every derivable
lookup key, so no `createInput`/`createOutput` call can ever resolve that
stored by-name key. -/
theorem C10_uppercase_never_resolvable (fmt : String)
    (hu : hasUpper fmt = true) :
    (∀ fn, format_of_filename fn ≠ fmt) ∧
    (∀ w reg path h,
      mapFind fmt reg.plugin_filepaths = none →
      w.openPlugin path = some h →
      (w.modules h).version = some IMAGEIO_VERSION →
      (w.modules h).getsym (fmt ++ "_input_imageio_create") ≠ 0 →
      mapFind fmt (catalog_plugin w reg fmt path).1.input_formats =
        some ((w.modules h).getsym (fmt ++ "_input_imageio_create"))) ∧
    (∀ w reg fn sp f,
      (ImageInput_create w reg fn sp).2 = CreateResult.ok f →
      ∃ k, k ≠ fmt ∧
        mapFind k (ImageInput_create w reg fn sp).1.input_formats = some f) ∧
    (∀ w reg fn sp f,
      (ImageOutput_create w reg fn sp).2 = CreateResult.ok f →
      ∃ k, k ≠ fmt ∧
        mapFind k (ImageOutput_create w reg fn sp).1.output_formats =
          some f) := by
  have hne : ∀ fn : String, format_of_filename fn ≠ fmt := by
    intro fn heq
    have hfalse := hasUpper_format_of_filename fn
    rw [heq, hu] at hfalse
    exact Bool.noConfusion hfalse
  refine ⟨hne, ?_, ?_, ?_⟩
  · intro w reg path h hfp hop hv hif
    rw [catalog_plugin_goodver hfp hop hv]
    dsimp only
    rw [if_pos hif]
    exact mapFind_register_exts_of_some (mapFind_mapSet_self _ _ _)
  · intro w reg fn sp f hok
    by_cases hfn : fn = ""
    · unfold ImageInput_create at hok
      rw [if_pos hfn] at hok
      exact CreateResult.noConfusion hok
    · exact ⟨format_of_filename fn, hne fn,
        (ImageInput_create_spec w reg fn sp hfn).2.1 f hok⟩
  · intro w reg fn sp f hok
    by_cases hfn : fn = ""
    · unfold ImageOutput_create at hok
      rw [if_pos hfn] at hok
      exact CreateResult.noConfusion hok
    · exact ⟨format_of_filename fn, hne fn,
        (ImageOutput_create_spec w reg fn sp hfn).2.1 f hok⟩

/-- Witness for C10 with the concrete format name `PNG`: the stored key is
`PNG` verbatim, and the dispatch key of `photo.PNG` cannot equal it. -/
theorem C10_uppercase_never_resolvable_witness :
    format_of_filename "photo.PNG" ≠ "PNG" ∧
    mapFind "PNG"
      ((catalog_plugin wUP Registry.empty
        "PNG" "/p/PNG.imageio.so").1).input_formats = some 11 :=
  ⟨(C10_uppercase_never_resolvable "PNG" (by decide)).1 "photo.PNG",
   (C10_uppercase_never_resolvable "PNG" (by decide)).2.1 wUP Registry.empty
     "/p/PNG.imageio.so" 1 (by decide) (by decide) (by decide) (by decide)⟩

end ImageIO
